import Mathlib

/-!
Verification of the windowed-random-permutation generator `randomordering`
from `src/DataReader/UCIReader/minibatchsourcehelpers.h`, shallowly embedded
in Lean 4.

Modelling conventions:
* `size_t` is modelled as `Nat`; where C wraps at 64 bits the wrap is made
  explicit (`sub1size`).  The sentinel `(size_t)-1` is `invalidSeed = 2^64-1`.
* `INDEXTYPE` (`unsigned int`, 32 bits) casts are `toINDEX x = x % 2^32`.
* `::rand()` after `srand(seed)` is the MSVC C runtime generator (the code is
  from a Windows build): state `s ↦ (s*214013+2531011) mod 2^32`, output
  `(s >> 16) & 0x7fff`, `RAND_MAX = 32767`.  Invariant theorems are proved for
  an arbitrary draw stream `rs : Nat → Nat`, so they do not depend on this
  choice; the concrete stream is only used for executable witnesses.
* The C `%` with a zero divisor is undefined behaviour, so the helper
  `msra::dbn::rand` is embedded as `Option`: `none` exactly when the window
  `[begin, end)` is empty.  The throws in `operator()` become `Except.error`.
-/

namespace msra.dbn

/-- `RAND_MAX` of the MSVC C runtime used by this (Windows) code base. -/
def RAND_MAX : Nat := 32767

/-- Modulus of `unsigned int` (the map's `INDEXTYPE`). -/
def UINT32 : Nat := 4294967296

/-- Modulus of `size_t` on the 64-bit build. -/
def SIZE64 : Nat := 18446744073709551616

/-- Cast to `INDEXTYPE` (`unsigned int`). -/
def toINDEX (x : Nat) : Nat := x % UINT32

/-- The sentinel `(size_t)-1` stored by `randomordering::invalidate`. -/
def invalidSeed : Nat := SIZE64 - 1

/-- The constant `randomizeDisable = 0`. -/
def randomizeDisable : Nat := 0

/-- `map.size()-1` computed in `size_t`: wraps to `2^64-1` when the map is
empty (faithful for every length below `2^64`). -/
def sub1size (n : Nat) : Nat := if n = 0 then SIZE64 - 1 else n - 1

/-- One step of the MSVC `rand()` linear congruential generator. -/
def lcgNext (s : Nat) : Nat := (s * 214013 + 2531011) % UINT32

/-- Output function of the MSVC `rand()` generator. -/
def lcgOut (s : Nat) : Nat := s / 65536 % 32768

/-- Generator state after `i` steps from `srand(seed)`. -/
def lcgState (seed : Nat) : Nat → Nat
  | 0 => seed % UINT32
  | i + 1 => lcgNext (lcgState seed i)

/-- The stream of successive `::rand()` outputs after `srand(seed)`:
`randStream seed i` is the `i`-th draw. -/
def randStream (seed : Nat) (i : Nat) : Nat := lcgOut (lcgState seed (i + 1))

/-- `msra::dbn::rand (begin, end)`, lines 35-39: combines the two raw draws
`r1, r2` as `r1 * RAND_MAX + r2` and maps the result into `[b, e)`.
C computes `randno % (end - begin)`, which is undefined for an empty window;
the embedding returns `none` exactly in that case (every call site of the
source has `b ≤ e`, guarded by an assertion). -/
def rand (r1 r2 : Nat) (b e : Nat) : Option Nat :=
  let randno := r1 * RAND_MAX + r2
  if e - b = 0 then none else some (b + randno % (e - b))

/-- `::swap (map[t], map[trand])`: exchange the entries at positions `i`
and `j` of the map. -/
def swapPos (l : List Nat) (i j : Nat) : List Nat :=
  (l.set i (l.getD j 0)).set j (l.getD i 0)

/-- The inner retry loop of `operator()` (lines 83-103): up to `tries`
remaining attempts for position `t`.  Each attempt consumes two raw draws
(`rs ctr`, `rs (ctr+1)`); a rejected attempt increments the retry counter and
redraws; exhausting the budget leaves `map[t]` as is.  Returns the updated
map, stream position and retry counter, or `none` on an empty window
(undefined behaviour in the C source). -/
def tryLoop (W : Nat) (rs : Nat → Nat) (t : Nat) :
    Nat → Nat → List Nat → Nat → Option (List Nat × Nat × Nat)
  | 0, ctr, m, retries => some (m, ctr, retries)
  | tries + 1, ctr, m, retries =>
    let tbegin := max t (W / 2) - W / 2
    let tend := min (t + W / 2) m.length
    match rand (rs ctr) (rs (ctr + 1)) tbegin tend with
    | none => none
    | some trand =>
      if trand ≤ m.getD t 0 + W / 2 ∧ m.getD t 0 < trand + W / 2 ∧
         t ≤ m.getD trand 0 + W / 2 ∧ m.getD trand 0 < t + W / 2 then
        some (swapPos m t trand, ctr + 2, retries)
      else
        tryLoop W rs t tries (ctr + 2) m (retries + 1)

/-- The outer loop of `operator()` (lines 81-104): positions
`t, t+1, ..., t+k-1`, threading the map, the stream position and the retry
counter.  Called with `k = map.length` and `t = 0`. -/
def genLoop (W : Nat) (rs : Nat → Nat) :
    Nat → Nat → Nat → List Nat → Nat → Option (List Nat × Nat)
  | 0, _, _, m, retries => some (m, retries)
  | k + 1, t, ctr, m, retries =>
    match tryLoop W rs t 5 ctr m retries with
    | none => none
    | some (m', ctr', retries') => genLoop W rs k (t + 1) ctr' m' retries'

/-- The error outcomes of the regeneration path of `operator()`. -/
inductive GenErr where
  /-- line 73: "INDEXTYPE has too few bits for this corpus". -/
  | indexOverflow : GenErr
  /-- line 78: "too large training set: need to change to different random
  generator!". -/
  | capacity : GenErr
  /-- division by zero inside `rand` (empty candidate window). -/
  | emptyWindow : GenErr
deriving DecidableEq

/-- The cache-miss body of `operator()` (lines 71-107), parametrised by the
stream of raw `::rand()` draws: numeric-overflow test, identity
initialisation `map[t] = (INDEXTYPE) t`, capacity test, then the swap loop.
Returns the regenerated map together with the retry count. -/
def regenerateWith (N W : Nat) (rs : Nat → Nat) : Except GenErr (List Nat × Nat) :=
  if toINDEX (sub1size N) ≠ sub1size N then .error .indexOverflow
  else
    let m0 := (List.range N).map toINDEX
    if N > RAND_MAX * RAND_MAX then .error .capacity
    else
      match genLoop W rs N 0 0 m0 0 with
      | none => .error .emptyWindow
      | some (m, retries) => .ok (m, retries)

/-- The cache-miss body of `operator()` with the draws produced by
`srand(seed)` / `::rand()`. -/
def regenerate (N W seed : Nat) : Except GenErr (List Nat × Nat) :=
  regenerateWith N W (randStream seed)

/-- The `randomordering` class state: the permutation map, the cached seed
and the randomization window. -/
structure randomordering where
  map : List Nat
  currentseed : Nat
  randomizationrange : Nat
deriving DecidableEq

/-- The default constructor `randomordering()`: `invalidate()` and
`randomizationrange = randomizeDisable`. -/
def initial : randomordering :=
  { map := [], currentseed := invalidSeed, randomizationrange := randomizeDisable }

/-- `randomordering::resize (len, p_randomizationrange)`, line 55: stores the
window, resizes the map (`vector::resize` keeps a prefix and value-initialises
any new entries; it is a no-op when `len = 0`), and invalidates the seed. -/
def randomordering.resize (st : randomordering) (len p_randomizationrange : Nat) :
    randomordering :=
  { map := if len > 0 then st.map.take len ++ List.replicate (len - st.map.length) 0
           else st.map,
    currentseed := invalidSeed,
    randomizationrange := p_randomizationrange }

/-- `randomordering::bounds (ts, te)`, lines 58-63.  All quantities are
`size_t`: the sum `te + randomizationrange/2` is computed mod `2^64` (it is
the one subexpression that can overflow for in-range `size_t` arguments; in
`max ts (W/2) - W/2` the minuend is at least the subtrahend, so that
subtraction never wraps). -/
def randomordering.bounds (st : randomordering) (ts te : Nat) : Nat × Nat :=
  (max ts (st.randomizationrange / 2) - st.randomizationrange / 2,
   min ((te + st.randomizationrange / 2) % SIZE64) st.map.length)

/-- `randomordering::operator() (seed)`, lines 66-124: on a cache miss with
randomization enabled, regenerate the map and cache the seed; otherwise
return the state unchanged.  The source returns a reference to the map; the
embedding returns the updated state (its `map` field is the returned map). -/
def randomordering.getMap (st : randomordering) (seed : Nat) :
    Except GenErr randomordering :=
  if seed ≠ st.currentseed ∧ st.randomizationrange ≠ randomizeDisable then
    match regenerate st.map.length st.randomizationrange seed with
    | .error e => .error e
    | .ok (m, _) => .ok { st with map := m, currentseed := seed }
  else
    .ok st

/-- `randomordering::CurrentSeed()`, line 125. -/
def randomordering.CurrentSeed (st : randomordering) : Nat := st.currentseed

deriving instance DecidableEq for Except

/-- The windowing invariant asserted on line 107 of the source:
`t <= map[t] + W/2 && map[t] < t + W/2` for every position `t`. -/
def winInv (W : Nat) (m : List Nat) : Prop :=
  ∀ t, t < m.length → t ≤ m.getD t 0 + W / 2 ∧ m.getD t 0 < t + W / 2

instance winInvDecidable (W : Nat) (m : List Nat) : Decidable (winInv W m) := by
  unfold winInv; infer_instance

theorem randomordering.map_mk (m : List Nat) (s r : Nat) :
    (randomordering.mk m s r).map = m := rfl

theorem randomordering.randomizationrange_mk (m : List Nat) (s r : Nat) :
    (randomordering.mk m s r).randomizationrange = r := rfl

theorem getD_eq (l : List Nat) (i : Nat) (h : i < l.length) : l.getD i 0 = l[i] := by
  rw [List.getD_eq_getElem?_getD, List.getElem?_eq_getElem h]; rfl

theorem getD_set_self (l : List Nat) (i x : Nat) (h : i < l.length) :
    (l.set i x).getD i 0 = x := by
  rw [getD_eq _ _ (by simpa using h)]
  exact List.getElem_set_self (by simpa using h)

theorem getD_set_ne (l : List Nat) (i j x : Nat) (h : i ≠ j) :
    (l.set i x).getD j 0 = l.getD j 0 := by
  rw [List.getD_eq_getElem?_getD, List.getD_eq_getElem?_getD, List.getElem?_set_ne h]

theorem length_swapPos (m : List Nat) (i j : Nat) :
    (swapPos m i j).length = m.length := by
  simp [swapPos]

theorem getD_swapPos_right (m : List Nat) (i j : Nat) (hj : j < m.length) :
    (swapPos m i j).getD j 0 = m.getD i 0 :=
  getD_set_self (m.set i (m.getD j 0)) j (m.getD i 0) (by simpa using hj)

theorem getD_swapPos_left (m : List Nat) (i j : Nat) (hi : i < m.length) (hij : i ≠ j) :
    (swapPos m i j).getD i 0 = m.getD j 0 := by
  unfold swapPos
  rw [getD_set_ne _ j i _ (Ne.symm hij)]
  exact getD_set_self m i _ hi

theorem getD_swapPos_other (m : List Nat) (i j p : Nat) (hpi : p ≠ i) (hpj : p ≠ j) :
    (swapPos m i j).getD p 0 = m.getD p 0 := by
  unfold swapPos
  rw [getD_set_ne _ j p _ (Ne.symm hpj), getD_set_ne _ i p _ (Ne.symm hpi)]

theorem getD_cons_set_perm : ∀ (tl : List Nat) (k a : Nat), k < tl.length →
    List.Perm (tl.getD k 0 :: tl.set k a) (a :: tl)
  | b :: tl', 0, a, _ => by
    simpa using List.Perm.swap a b tl'
  | b :: tl', k + 1, a, h => by
    have ih := getD_cons_set_perm tl' k a (by simpa using h)
    exact (List.Perm.swap b (tl'.getD k 0) (tl'.set k a)).trans
      ((ih.cons b).trans (List.Perm.swap a b tl'))

theorem swapPos_perm : ∀ (m : List Nat) (i j : Nat), i < m.length → j < m.length →
    List.Perm (swapPos m i j) m
  | a :: tl, 0, 0, _, _ => by
    simp [swapPos]
  | a :: tl, 0, r + 1, _, h2 => by
    simpa [swapPos] using getD_cons_set_perm tl r a (by simpa using h2)
  | a :: tl, s + 1, 0, h1, _ => by
    simpa [swapPos] using getD_cons_set_perm tl s a (by simpa using h1)
  | a :: tl, s + 1, r + 1, h1, h2 => by
    have ih := swapPos_perm tl s r (by simpa using h1) (by simpa using h2)
    simpa [swapPos] using ih.cons a

theorem rand_eq_some {r1 r2 b e v : Nat} (h : rand r1 r2 b e = some v) :
    b ≤ v ∧ v < e := by
  unfold rand at h
  by_cases hc : e - b = 0
  · simp [hc] at h
  · simp [hc] at h
    have := Nat.mod_lt (r1 * RAND_MAX + r2) (Nat.pos_of_ne_zero hc)
    omega

/-- One position's retry loop: if it returns, the map keeps its length, stays
a permutation of the input, and the windowing invariant is preserved. -/
theorem tryLoop_ok (W : Nat) (rs : Nat → Nat) (t : Nat) :
    ∀ (tries ctr retries : Nat) (m : List Nat) (out : List Nat × Nat × Nat),
      tryLoop W rs t tries ctr m retries = some out →
      t < m.length →
      out.1.length = m.length ∧ List.Perm out.1 m ∧ (winInv W m → winInv W out.1)
  | 0, ctr, retries, m, out, h, ht => by
    simp only [tryLoop] at h
    cases h
    exact ⟨rfl, List.Perm.refl _, fun hv => hv⟩
  | tries + 1, ctr, retries, m, out, h, ht => by
    simp only [tryLoop] at h
    split at h
    · exact absurd h (by simp)
    · rename_i trand hr
      have htr : trand < m.length := by
        have := (rand_eq_some hr).2
        omega
      split at h
      · rename_i hcond
        cases h
        refine ⟨length_swapPos m t trand, swapPos_perm m t trand ht htr, fun hv p hp => ?_⟩
        rw [length_swapPos] at hp
        by_cases hpj : p = trand
        · subst hpj
          rw [getD_swapPos_right m t p htr]
          exact ⟨hcond.1, hcond.2.1⟩
        · by_cases hpi : p = t
          · subst hpi
            rw [getD_swapPos_left m p trand ht hpj]
            exact ⟨hcond.2.2.1, hcond.2.2.2⟩
          · rw [getD_swapPos_other m t trand p hpi hpj]
            exact hv p hp
      · exact tryLoop_ok W rs t tries (ctr + 2) (retries + 1) m out h ht

/-- The outer generation loop preserves length, permutation and the
windowing invariant. -/
theorem genLoop_ok (W : Nat) (rs : Nat → Nat) :
    ∀ (k t ctr retries : Nat) (m : List Nat) (out : List Nat × Nat),
      genLoop W rs k t ctr m retries = some out →
      t + k ≤ m.length →
      out.1.length = m.length ∧ List.Perm out.1 m ∧ (winInv W m → winInv W out.1)
  | 0, t, ctr, retries, m, out, h, hk => by
    simp only [genLoop] at h
    cases h
    exact ⟨rfl, List.Perm.refl _, fun hv => hv⟩
  | k + 1, t, ctr, retries, m, out, h, hk => by
    simp only [genLoop] at h
    rcases htl : tryLoop W rs t 5 ctr m retries with _ | ⟨m', ctr', retries'⟩
    · simp only [htl] at h
      exact absurd h (by simp)
    · simp only [htl] at h
      have hstep := tryLoop_ok W rs t 5 ctr retries m (m', ctr', retries') htl (by omega)
      have hrec := genLoop_ok W rs k (t + 1) ctr' retries' m' out h
        (by rw [hstep.1]; omega)
      exact ⟨hrec.1.trans hstep.1, hrec.2.1.trans hstep.2.1,
        fun hv => hrec.2.2 (hstep.2.2 hv)⟩

/-- Regeneration, when it succeeds, yields a map of the configured length
that is a permutation of `[0, N)` and (for `W ≥ 2`) satisfies the windowing
invariant. -/
theorem regenerateWith_ok {N W : Nat} {rs : Nat → Nat} {m : List Nat} {r : Nat}
    (h : regenerateWith N W rs = Except.ok (m, r)) :
    m.length = N ∧ List.Perm m (List.range N) ∧ (2 ≤ W → winInv W m) := by
  simp only [regenerateWith] at h
  split at h
  · exact absurd h (by simp)
  · rename_i hfit
    rw [not_not] at hfit
    split at h
    · exact absurd h (by simp)
    · have hN0 : N ≠ 0 := by
        intro h0
        subst h0
        simp [sub1size, toINDEX, UINT32, SIZE64] at hfit
      have hlt : sub1size N < UINT32 := by
        rw [← hfit]
        exact Nat.mod_lt _ (by norm_num [UINT32])
      have hlt' : N - 1 < UINT32 := by
        rwa [sub1size, if_neg hN0] at hlt
      have hm0 : (List.range N).map toINDEX = List.range N := by
        have hc : ∀ a ∈ List.range N, toINDEX a = id a := by
          intro a ha
          have := List.mem_range.mp ha
          unfold toINDEX
          exact Nat.mod_eq_of_lt (by omega)
        rw [List.map_congr_left hc, List.map_id]
      rw [hm0] at h
      rcases hg : genLoop W rs N 0 0 (List.range N) 0 with _ | x
      · rw [hg] at h; exact absurd h (by simp)
      · rw [hg] at h
        obtain ⟨m2, r2⟩ := x
        simp only [Except.ok.injEq, Prod.mk.injEq] at h
        obtain ⟨hm2, -⟩ := h
        subst hm2
        have hloop := genLoop_ok W rs N 0 0 0 (List.range N) (m2, r2) hg
          (by simp)
        have hbase : 2 ≤ W → winInv W (List.range N) := by
          intro hW p hp
          rw [List.length_range] at hp
          rw [getD_eq _ _ (by simpa using hp), List.getElem_range]
          have h2 : 1 ≤ W / 2 := by omega
          omega
        refine ⟨by rw [hloop.1, List.length_range], by simpa using hloop.2.1,
          fun hW => hloop.2.2 (hbase hW)⟩

/-- The cache-miss path of `operator()`: a successful `getMap` with a fresh
seed and randomization enabled is exactly a successful regeneration, and it
caches the requested seed. -/
theorem getMap_ok_regen {st st' : randomordering} {seed : Nat}
    (hmiss : seed ≠ st.currentseed) (hW : st.randomizationrange ≠ 0)
    (h : st.getMap seed = Except.ok st') :
    ∃ r, regenerate st.map.length st.randomizationrange seed = Except.ok (st'.map, r) ∧
      st'.currentseed = seed ∧ st'.randomizationrange = st.randomizationrange := by
  unfold randomordering.getMap at h
  rw [if_pos ⟨hmiss, by simpa [randomizeDisable] using hW⟩] at h
  rcases hr : regenerate st.map.length st.randomizationrange seed with e | x
  · rw [hr] at h; exact absurd h (by simp)
  · rw [hr] at h
    obtain ⟨m, r⟩ := x
    simp only [Except.ok.injEq] at h
    subst h
    exact ⟨r, rfl, rfl, rfl⟩

/-- The cache-hit / disabled path of `operator()`: no regeneration, the state
is returned unchanged. -/
theorem getMap_skip {st : randomordering} {seed : Nat}
    (h : seed = st.currentseed ∨ st.randomizationrange = randomizeDisable) :
    st.getMap seed = Except.ok st := by
  unfold randomordering.getMap
  rw [if_neg]
  rintro ⟨h1, h2⟩
  rcases h with h | h
  · exact h1 h
  · exact h2 h

/-- A freshly constructed then resized store holds `len` value-initialised
(zero) entries. -/
theorem resize_fresh_map (len W : Nat) :
    (initial.resize len W).map = List.replicate len 0 := by
  unfold initial randomordering.resize
  by_cases hN : len = 0
  · subst hN; simp
  · simp only []
    rw [if_pos (by omega)]
    simp

/-- The narrow-index overflow test fires on the regeneration path of
`operator()` before any map initialisation or random draw. -/
theorem getMap_overflow_error (st : randomordering) (seed : Nat)
    (hfit : toINDEX (sub1size st.map.length) ≠ sub1size st.map.length)
    (hmiss : seed ≠ st.currentseed) (hW : st.randomizationrange ≠ 0) :
    st.getMap seed = Except.error GenErr.indexOverflow := by
  unfold randomordering.getMap
  rw [if_pos ⟨hmiss, by simpa [randomizeDisable] using hW⟩]
  simp only [regenerate, regenerateWith]
  rw [if_pos hfit]

/-- When the index width suffices but the corpus exceeds `RAND_MAX²`, the
regeneration body stops with the capacity error, before any draw. -/
theorem regenerateWith_capacity (N W : Nat) (rs : Nat → Nat)
    (hfit : toINDEX (sub1size N) = sub1size N)
    (hbig : N > RAND_MAX * RAND_MAX) :
    regenerateWith N W rs = Except.error GenErr.capacity := by
  simp only [regenerateWith]
  rw [if_neg (fun hne => hne hfit), if_pos hbig]

/-- `operator()` surfaces the capacity error on a cache miss. -/
theorem getMap_capacity_error (st : randomordering) (seed : Nat)
    (hfit : toINDEX (sub1size st.map.length) = sub1size st.map.length)
    (hbig : st.map.length > RAND_MAX * RAND_MAX)
    (hmiss : seed ≠ st.currentseed) (hW : st.randomizationrange ≠ 0) :
    st.getMap seed = Except.error GenErr.capacity := by
  unfold randomordering.getMap
  rw [if_pos ⟨hmiss, by simpa [randomizeDisable] using hW⟩]
  rw [regenerate, regenerateWith_capacity _ _ _ hfit hbig]

/-!  Claim theorems. -/

/-- Claim C1, counterexample to the claim as stated: on a freshly configured
store with `N = 2` and `W = 0`, `get(7)` performs no regeneration but returns
the value-initialised all-zero map `[0, 0]`, not the identity `[0, 1]`. -/
theorem identity_when_disabled_cex :
    (initial.resize 2 0).getMap 7 = Except.ok (initial.resize 2 0) ∧
    (initial.resize 2 0).map = [0, 0] ∧ ([0, 0] : List Nat) ≠ [0, 1] := by
  decide

/-- Claim C1 amended: when `W = 0` (randomization disabled), `get(seed)` never
regenerates and returns the stored map unchanged for every seed; on a freshly
configured store of length `N` that map is `N` zeros — which coincides with
the identity mapping only for `N ≤ 1` — and in particular for `N = 1` it is
the single-element identity map `[0]` for every seed. -/
theorem disabled_returns_stored_map (st : randomordering) (seed N : Nat)
    (h : st.randomizationrange = randomizeDisable) :
    st.getMap seed = Except.ok st ∧
    (initial.resize N randomizeDisable).map = List.replicate N 0 ∧
    (initial.resize 1 randomizeDisable).map = [0] := by
  exact ⟨getMap_skip (Or.inr h), resize_fresh_map N _, by decide⟩

/-- Witness for `disabled_returns_stored_map` at `st = initial`, `seed = 9`,
`N = 1`. -/
theorem disabled_returns_stored_map_witness :
    initial.getMap 9 = Except.ok initial ∧
    (initial.resize 1 randomizeDisable).map = List.replicate 1 0 ∧
    (initial.resize 1 randomizeDisable).map = [0] :=
  disabled_returns_stored_map initial 9 1 rfl

/-- Claim C2, counterexample to the claim as stated: with `N = 2^32 + 1`
(whose `N - 1` does not fit the `unsigned int` index type), `resize` does not
fail — it installs the new window, resizes the map and invalidates the seed —
and the `ConfigurationError` is raised only by the subsequent `get`. -/
theorem configure_time_error_cex :
    (initial.resize (UINT32 + 1) 4).randomizationrange = 4 ∧
    (initial.resize (UINT32 + 1) 4).currentseed = invalidSeed ∧
    (initial.resize (UINT32 + 1) 4).map.length = UINT32 + 1 ∧
    (initial.resize (UINT32 + 1) 4).getMap 0 = Except.error GenErr.indexOverflow := by
  have hlen : (initial.resize (UINT32 + 1) 4).map.length = UINT32 + 1 := by
    rw [resize_fresh_map]; exact List.length_replicate _ _
  refine ⟨rfl, rfl, hlen, ?_⟩
  exact getMap_overflow_error _ 0 (by rw [hlen]; decide) (by decide) (by decide)

/-- Claim C2 amended: `resize` itself never fails and always mutates the
store (it installs the new window and invalidates the seed, whatever the
length); the `ConfigurationError` for an `N` whose `N−1` is not representable
in the narrow index type is raised on the first `get(seed)` with a cache-miss
seed and randomization enabled, before any generation work. -/
theorem overflow_raised_at_get (st : randomordering) (seed len W : Nat)
    (hfit : toINDEX (sub1size st.map.length) ≠ sub1size st.map.length)
    (hmiss : seed ≠ st.currentseed) (hW : st.randomizationrange ≠ 0) :
    st.getMap seed = Except.error GenErr.indexOverflow ∧
    (st.resize len W).currentseed = invalidSeed ∧
    (st.resize len W).randomizationrange = W :=
  ⟨getMap_overflow_error st seed hfit hmiss hW, rfl, rfl⟩

/-- Witness for `overflow_raised_at_get` at the freshly configured store of
length `2^32 + 1` with `W = 4` and seed `0`. -/
theorem overflow_raised_at_get_witness :
    toINDEX (sub1size (initial.resize (UINT32 + 1) 4).map.length) ≠
      sub1size (initial.resize (UINT32 + 1) 4).map.length ∧
    (initial.resize (UINT32 + 1) 4).getMap 0 = Except.error GenErr.indexOverflow := by
  have hfit : toINDEX (sub1size (initial.resize (UINT32 + 1) 4).map.length) ≠
      sub1size (initial.resize (UINT32 + 1) 4).map.length := by
    rw [resize_fresh_map, List.length_replicate]; decide
  exact ⟨hfit,
    (overflow_raised_at_get _ 0 1 1 hfit (by decide) (by decide)).1⟩

/-- Claim C6, counterexample to the claim as stated: `bounds` computes
`te + W/2` in `size_t`, which wraps mod `2^64`, so at the in-range argument
pair `(0, 2^64 − 1)` with `N = 10`, `W = 4` the program returns the upper
bound `min((2^64 + 1) mod 2^64, 10) = 1`, while the claimed closed form
`min(te + W/2, N)` gives `10`. -/
theorem bounds_closed_form_cex :
    (initial.resize 10 4).bounds 0 (SIZE64 - 1) = (0, 1) ∧
    (0 - (initial.resize 10 4).randomizationrange / 2,
      min ((SIZE64 - 1) + (initial.resize 10 4).randomizationrange / 2)
        (initial.resize 10 4).map.length) = (0, 10) ∧
    ((0, 1) : Nat × Nat) ≠ (0, 10) := by
  refine ⟨by decide, by decide, by decide⟩

/-- Claim C6 amended: for every configured state, window `W` and range
`0 ≤ ts ≤ te`, as long as the `size_t` sum `te + W/2` does not wrap
(`te + W/2 < 2^64` — automatic for every range over an actually
constructible corpus), `bounds(ts, te)` equals exactly
`(max(ts − W/2, 0), min(te + W/2, N))` where `N` is the stored map length;
in `Nat` the clamped subtraction is `ts - W/2`.  For `te + W/2 ≥ 2^64` the
sum wraps mod `2^64` first.  `bounds` is a pure function of the state (a
`const` method in the source; the embedding takes and returns no mutable
state). -/
theorem bounds_closed_form (st : randomordering) (ts te : Nat) (h : ts ≤ te)
    (hno : te + st.randomizationrange / 2 < SIZE64) :
    st.bounds ts te =
      (ts - st.randomizationrange / 2,
       min (te + st.randomizationrange / 2) st.map.length) := by
  unfold randomordering.bounds
  rw [Nat.mod_eq_of_lt hno]
  have hmax : max ts (st.randomizationrange / 2) - st.randomizationrange / 2
      = ts - st.randomizationrange / 2 := by omega
  rw [hmax]

/-- Witness for `bounds_closed_form`: with `N = 10`, `W = 4`,
`bounds(3, 5) = (1, 7)`. -/
theorem bounds_closed_form_witness :
    3 ≤ 5 ∧ 5 + (initial.resize 10 4).randomizationrange / 2 < SIZE64 ∧
    (initial.resize 10 4).bounds 3 5 = (1, 7) :=
  ⟨by decide, by decide,
    by rw [bounds_closed_form (initial.resize 10 4) 3 5 (by decide) (by decide)]; decide⟩

/-- Claim C9: after `resize(N, W)` with `W ≠ 0` and before any generation,
the cached seed is the invalid sentinel `(size_t)-1` (reported by
`CurrentSeed`), so `get((size_t)-1)` compares equal to it, skips regeneration
entirely, and returns the never-generated map — `N` value-initialised zero
entries. -/
theorem sentinel_seed_returns_zero_map (N W : Nat) (hW : W ≠ 0) :
    (initial.resize N W).getMap invalidSeed = Except.ok (initial.resize N W) ∧
    (initial.resize N W).map = List.replicate N 0 ∧
    (initial.resize N W).CurrentSeed = invalidSeed :=
  ⟨getMap_skip (Or.inl rfl), resize_fresh_map N W, rfl⟩

/-- Witness for `sentinel_seed_returns_zero_map` at `N = 3`, `W = 4`. -/
theorem sentinel_seed_returns_zero_map_witness :
    (initial.resize 3 4).getMap invalidSeed = Except.ok (initial.resize 3 4) ∧
    (initial.resize 3 4).map = List.replicate 3 0 ∧
    (initial.resize 3 4).CurrentSeed = invalidSeed :=
  sentinel_seed_returns_zero_map 3 4 (by decide)

/-- Claim C7, counterexample to the claim as stated: the length-1 map `[1]`
with `W = 4` satisfies the windowing invariant at its only position
(`0 ≤ 1 + 2` and `1 < 0 + 2`), yet its value `1` does not lie inside
`bounds(0, 1) = [0, 1)` — the claim omits the requirement that the map's
entries lie in `[0, N)`. -/
theorem bounds_containment_cex :
    winInv (⟨[1], invalidSeed, 4⟩ : randomordering).randomizationrange
      (⟨[1], invalidSeed, 4⟩ : randomordering).map ∧
    ¬ ((⟨[1], invalidSeed, 4⟩ : randomordering).map.getD 0 0 <
        ((⟨[1], invalidSeed, 4⟩ : randomordering).bounds 0 1).2) := by
  constructor
  · decide
  · decide

/-- Claim C7 amended: for `0 ≤ ts ≤ te ≤ N` and a map of length `N` that
satisfies the windowing invariant **and whose entries lie in `[0, N)`** (as
every generated map does), provided the `size_t` sum `te + W/2` does not wrap
(`te + W/2 < 2^64` — automatic for every constructible map, since a
`vector<unsigned int>` can never hold anywhere near `2^64 − W/2` elements),
every value `map[t]` with `t ∈ [ts, te)` lies in the half-open interval
returned by `bounds(ts, te)`. -/
theorem bounds_containment (st : randomordering) (ts te t : Nat)
    (hte : te ≤ st.map.length)
    (hno : te + st.randomizationrange / 2 < SIZE64)
    (hinv : winInv st.randomizationrange st.map)
    (hran : ∀ p, p < st.map.length → st.map.getD p 0 < st.map.length)
    (h1 : ts ≤ t) (h2 : t < te) :
    (st.bounds ts te).1 ≤ st.map.getD t 0 ∧
      st.map.getD t 0 < (st.bounds ts te).2 := by
  have ht : t < st.map.length := by omega
  have hi := hinv t ht
  have hr := hran t ht
  unfold randomordering.bounds
  rw [Nat.mod_eq_of_lt hno]
  refine ⟨?_, ?_⟩
  · show max ts (st.randomizationrange / 2) - st.randomizationrange / 2 ≤
      st.map.getD t 0
    omega
  · show st.map.getD t 0 < min (te + st.randomizationrange / 2) st.map.length
    omega

/-- Witness for `bounds_containment`: the identity map of length 3 with
`W = 4`, range `[0, 3)`, position `t = 1`. -/
theorem bounds_containment_witness :
    ((⟨[0, 1, 2], invalidSeed, 4⟩ : randomordering).bounds 0 3).1 ≤
      (⟨[0, 1, 2], invalidSeed, 4⟩ : randomordering).map.getD 1 0 ∧
    (⟨[0, 1, 2], invalidSeed, 4⟩ : randomordering).map.getD 1 0 <
      ((⟨[0, 1, 2], invalidSeed, 4⟩ : randomordering).bounds 0 3).2 :=
  bounds_containment (⟨[0, 1, 2], invalidSeed, 4⟩ : randomordering) 0 3 1
    (by decide) (by decide) (by decide) (by decide) (by decide) (by decide)

/-- The no-wrap premise of `bounds_containment` is forced by the `size_t`
wrap in `bounds`: on the identity map of length `2^64 − 1` with `W = 4` (a
state no C run can construct, but expressible over unbounded lists), the
windowing invariant and the entry range both hold, yet the value at position
`2^64 − 2` escapes the wrapped upper bound
`min((2^64 − 1 + 2) mod 2^64, 2^64 − 1) = 1`. -/
theorem bounds_wrap_necessity :
    winInv (⟨List.range (SIZE64 - 1), 0, 4⟩ : randomordering).randomizationrange
      (⟨List.range (SIZE64 - 1), 0, 4⟩ : randomordering).map ∧
    ¬ ((⟨List.range (SIZE64 - 1), 0, 4⟩ : randomordering).map.getD (SIZE64 - 2) 0 <
        ((⟨List.range (SIZE64 - 1), 0, 4⟩ : randomordering).bounds
          (SIZE64 - 2) (SIZE64 - 1)).2) := by
  have hgetD : ∀ t : Nat, t < SIZE64 - 1 →
      (List.range (SIZE64 - 1)).getD t 0 = t := by
    intro t ht
    have hlt : t < (List.range (SIZE64 - 1)).length := by
      rw [List.length_range]; exact ht
    rw [getD_eq (List.range (SIZE64 - 1)) t hlt, List.getElem_range]
  constructor
  · rw [randomordering.randomizationrange_mk, randomordering.map_mk]
    intro t ht
    rw [List.length_range] at ht
    rw [hgetD t ht]
    omega
  · unfold randomordering.bounds
    rw [randomordering.map_mk, randomordering.randomizationrange_mk,
      hgetD (SIZE64 - 2) (by decide), List.length_range]
    decide

/-- Claim C5: `get` is deterministic.  A successful `get(seed)` caches `seed`,
so an immediately repeated `get(seed)` returns the identical state (and map)
without regenerating; and two successful cache-miss generations on stores of
equal length and equal window, with equal seed, produce bit-identical maps
(regeneration depends only on `(N, W, seed)`, not on the prior map
contents). -/
theorem get_deterministic (st st' st₁ st₁' : randomordering) (seed : Nat)
    (h1 : st.getMap seed = Except.ok st₁) (h2 : st'.getMap seed = Except.ok st₁')
    (hlen : st.map.length = st'.map.length)
    (hrr : st.randomizationrange = st'.randomizationrange)
    (hm1 : seed ≠ st.currentseed) (hm2 : seed ≠ st'.currentseed)
    (hW : st.randomizationrange ≠ 0) :
    st₁.map = st₁'.map ∧ st₁.getMap seed = Except.ok st₁ := by
  obtain ⟨r, hreg, hseed, -⟩ := getMap_ok_regen hm1 hW h1
  obtain ⟨r', hreg', -, -⟩ := getMap_ok_regen hm2 (by rwa [hrr] at hW) h2
  constructor
  · rw [hlen, hrr] at hreg
    have hsame := hreg.symm.trans hreg'
    simp only [Except.ok.injEq, Prod.mk.injEq] at hsame
    exact hsame.1
  · exact getMap_skip (Or.inl hseed.symm)

/-- Witness for `get_deterministic`: two stores with different junk maps of
equal length 2 and `W = 4` both regenerate, for seed 9, the identical map
`[1, 0]`; the repeated call returns it unchanged. -/
theorem get_deterministic_witness :
    ((⟨[7, 7], 0, 4⟩ : randomordering).getMap 9 = Except.ok ⟨[1, 0], 9, 4⟩) ∧
    ((⟨[5, 5], 1, 4⟩ : randomordering).getMap 9 = Except.ok ⟨[1, 0], 9, 4⟩) ∧
    (⟨[1, 0], 9, 4⟩ : randomordering).map = (⟨[1, 0], 9, 4⟩ : randomordering).map ∧
    (⟨[1, 0], 9, 4⟩ : randomordering).getMap 9 = Except.ok ⟨[1, 0], 9, 4⟩ := by
  have h1 : (⟨[7, 7], 0, 4⟩ : randomordering).getMap 9 = Except.ok ⟨[1, 0], 9, 4⟩ := by
    decide
  have h2 : (⟨[5, 5], 1, 4⟩ : randomordering).getMap 9 = Except.ok ⟨[1, 0], 9, 4⟩ := by
    decide
  have hd := get_deterministic _ _ _ _ 9 h1 h2 rfl rfl (by decide) (by decide) (by decide)
  exact ⟨h1, h2, hd.1, hd.2⟩

/-- Claim C3: for every configured length, window `W ≥ 2` and seed, when
`get(seed)` regenerates and returns a map, every position `t` satisfies the
windowing invariant `t ≤ map[t] + W/2 ∧ map[t] < t + W/2` — including
positions whose per-element retry budget was exhausted (the underlying loop
lemma holds for an arbitrary draw stream, hence for every seed). -/
theorem window_invariant_after_get (st st' : randomordering) (seed : Nat)
    (hmiss : seed ≠ st.currentseed) (hW : 2 ≤ st.randomizationrange)
    (h : st.getMap seed = Except.ok st') :
    ∀ t, t < st'.map.length →
      t ≤ st'.map.getD t 0 + st.randomizationrange / 2 ∧
      st'.map.getD t 0 < t + st.randomizationrange / 2 := by
  obtain ⟨r, hreg, -, -⟩ := getMap_ok_regen hmiss (by omega) h
  have hreg' : regenerateWith st.map.length st.randomizationrange (randStream seed)
      = Except.ok (st'.map, r) := hreg
  exact fun t ht => (regenerateWith_ok hreg').2.2 hW t ht

/-- Witness for `window_invariant_after_get`: the concrete run `N = 10`,
`W = 4`, seed 42 produces `[0, 2, 3, 1, 4, 5, 6, 8, 7, 9]`; the invariant is
checked at position `t = 7` (value 8). -/
theorem window_invariant_after_get_witness :
    ((initial.resize 10 4).getMap 42 =
      Except.ok ⟨[0, 2, 3, 1, 4, 5, 6, 8, 7, 9], 42, 4⟩) ∧
    7 ≤ (⟨[0, 2, 3, 1, 4, 5, 6, 8, 7, 9], 42, 4⟩ : randomordering).map.getD 7 0 +
        (initial.resize 10 4).randomizationrange / 2 ∧
    (⟨[0, 2, 3, 1, 4, 5, 6, 8, 7, 9], 42, 4⟩ : randomordering).map.getD 7 0 <
        7 + (initial.resize 10 4).randomizationrange / 2 := by
  have h : (initial.resize 10 4).getMap 42 =
      Except.ok ⟨[0, 2, 3, 1, 4, 5, 6, 8, 7, 9], 42, 4⟩ := by decide
  have hw := window_invariant_after_get _ _ 42 (by decide) (by decide) h 7 (by decide)
  exact ⟨h, hw.1, hw.2⟩

/-- Claim C4: whenever `get(seed)` regenerates (window `W ≥ 2`) and returns a
map, the map is a bijection on `[0, N)`: sorting its `N` entries yields
exactly the identity sequence `0, 1, ..., N−1`. -/
theorem map_is_permutation (st st' : randomordering) (seed : Nat)
    (hmiss : seed ≠ st.currentseed) (hW : 2 ≤ st.randomizationrange)
    (h : st.getMap seed = Except.ok st') :
    List.insertionSort (· ≤ ·) st'.map = List.range st.map.length := by
  obtain ⟨r, hreg, -, -⟩ := getMap_ok_regen hmiss (by omega) h
  have hreg' : regenerateWith st.map.length st.randomizationrange (randStream seed)
      = Except.ok (st'.map, r) := hreg
  have hperm := (regenerateWith_ok hreg').2.1
  exact List.eq_of_perm_of_sorted
    ((List.perm_insertionSort _ _).trans hperm)
    (List.sorted_insertionSort _ _)
    (List.sorted_le_range _)

/-- Witness for `map_is_permutation` on the concrete run `N = 10`, `W = 4`,
seed 42. -/
theorem map_is_permutation_witness :
    ((initial.resize 10 4).getMap 42 =
      Except.ok ⟨[0, 2, 3, 1, 4, 5, 6, 8, 7, 9], 42, 4⟩) ∧
    List.insertionSort (· ≤ ·)
        (⟨[0, 2, 3, 1, 4, 5, 6, 8, 7, 9], 42, 4⟩ : randomordering).map
      = List.range (initial.resize 10 4).map.length := by
  have h : (initial.resize 10 4).getMap 42 =
      Except.ok ⟨[0, 2, 3, 1, 4, 5, 6, 8, 7, 9], 42, 4⟩ := by decide
  exact ⟨h, map_is_permutation _ _ 42 (by decide) (by decide) h⟩

/-- Claim C8, counterexample to the claim as stated: `N = 2^32 + 1` exceeds
`RAND_MAX * RAND_MAX`, yet the first `get` fails with the narrow-index
overflow error (which is tested first), not with the capacity error. -/
theorem capacity_error_cex :
    UINT32 + 1 > RAND_MAX * RAND_MAX ∧
    (initial.resize (UINT32 + 1) 2).getMap 3 = Except.error GenErr.indexOverflow ∧
    (initial.resize (UINT32 + 1) 2).getMap 3 ≠ Except.error GenErr.capacity := by
  have hlen : (initial.resize (UINT32 + 1) 2).map.length = UINT32 + 1 := by
    rw [resize_fresh_map]; exact List.length_replicate _ _
  have hov : (initial.resize (UINT32 + 1) 2).getMap 3 =
      Except.error GenErr.indexOverflow :=
    getMap_overflow_error _ 3 (by rw [hlen]; decide) (by decide) (by decide)
  exact ⟨by decide, hov, by rw [hov]; decide⟩

/-- Claim C8 amended: when additionally `N − 1` fits the narrow index type
(`N ≤ 2^32`, otherwise the index-width error preempts it), an
`N > RAND_MAX * RAND_MAX` makes the first `get(seed)` with a new seed and
`W ≠ 0` fail with the capacity error; the failure happens before generation —
the regeneration body's outcome does not depend on the draw stream, so no
random draw or swap is performed. -/
theorem capacity_raised_before_generation (st : randomordering) (seed : Nat)
    (hfit : toINDEX (sub1size st.map.length) = sub1size st.map.length)
    (hbig : st.map.length > RAND_MAX * RAND_MAX)
    (hmiss : seed ≠ st.currentseed) (hW : st.randomizationrange ≠ 0) :
    st.getMap seed = Except.error GenErr.capacity ∧
    ∀ (W : Nat) (rs rs' : Nat → Nat),
      regenerateWith st.map.length W rs = regenerateWith st.map.length W rs' := by
  refine ⟨getMap_capacity_error st seed hfit hbig hmiss hW, fun W rs rs' => ?_⟩
  rw [regenerateWith_capacity _ _ _ hfit hbig, regenerateWith_capacity _ _ _ hfit hbig]

/-- Witness for `capacity_raised_before_generation` at the freshly configured
store of length `2^30` (which exceeds `RAND_MAX² = 32767²` but fits the index
type), `W = 5`, seed 0. -/
theorem capacity_raised_before_generation_witness :
    (initial.resize 1073741824 5).map.length > RAND_MAX * RAND_MAX ∧
    (initial.resize 1073741824 5).getMap 0 = Except.error GenErr.capacity ∧
    regenerateWith (initial.resize 1073741824 5).map.length 7 (randStream 1)
      = regenerateWith (initial.resize 1073741824 5).map.length 7 (randStream 2) := by
  have hlen : (initial.resize 1073741824 5).map.length = 1073741824 := by
    rw [resize_fresh_map]; exact List.length_replicate _ _
  have hc := capacity_raised_before_generation (initial.resize 1073741824 5) 0
    (by rw [hlen]; decide) (by rw [hlen]; decide) (by decide) (by decide)
  exact ⟨by rw [hlen]; decide, hc.1, hc.2 7 (randStream 1) (randStream 2)⟩

/-- With `W = 1` every attempt of the inner retry loop hits an empty window,
so the loop is undefined (returns `none`) for any budget `tries + 1`. -/
theorem tryLoop_w1_none (rs : Nat → Nat) (t tries ctr retries : Nat) (m : List Nat) :
    tryLoop 1 rs t (tries + 1) ctr m retries = none := by
  simp only [tryLoop]
  have he : rand (rs ctr) (rs (ctr + 1)) (max t (1 / 2) - 1 / 2)
      (min (t + 1 / 2) m.length) = none := by
    simp only [rand]
    rw [if_pos (by omega)]
  rw [he]

/-- With `W = 1` the outer generation loop fails at its first position. -/
theorem genLoop_w1_none (rs : Nat → Nat) (k t ctr : Nat) (m : List Nat)
    (retries : Nat) (hk : 1 ≤ k) : genLoop 1 rs k t ctr m retries = none := by
  obtain ⟨k', rfl⟩ : ∃ k', k = k' + 1 := ⟨k - 1, by omega⟩
  simp only [genLoop]
  rw [show tryLoop 1 rs t 5 ctr m retries = none from tryLoop_w1_none rs t 4 ctr retries m]

/-- With `W = 1` and a non-empty corpus, the regeneration body always ends in
an error, whatever the draw stream. -/
theorem regenerateWith_w1_error (rs : Nat → Nat) (N : Nat) (hN : 1 ≤ N) :
    ∃ e, regenerateWith N 1 rs = Except.error e := by
  simp only [regenerateWith]
  split
  · exact ⟨_, rfl⟩
  · split
    · exact ⟨_, rfl⟩
    · rw [genLoop_w1_none rs N 0 0 ((List.range N).map toINDEX) 0 hN]
      exact ⟨_, rfl⟩

/-- Claim C10: with `W = 1` (nonzero, so randomization is enabled, but
`W/2 = 0`) every position `t < N` of the generation loop gets the empty
candidate window `[t, t)`; the helper `rand` then takes the draw modulo
`end − begin = 0`, which is undefined in C and `none` in the embedding, so a
cache-miss `get` can never complete for any seed and any `N ≥ 1`. -/
theorem w1_generation_undefined (t : Nat) (rs : Nat → Nat) (st : randomordering)
    (seed : Nat) (hN : 1 ≤ st.map.length) (ht : t < st.map.length)
    (hW : st.randomizationrange = 1) (hmiss : seed ≠ st.currentseed) :
    (max t (1 / 2) - 1 / 2 = t ∧ min (t + 1 / 2) st.map.length = t) ∧
    rand (rs 0) (rs 1) t t = none ∧
    (regenerateWith st.map.length 1 rs).isOk = false ∧
    (st.getMap seed).isOk = false := by
  refine ⟨⟨by omega, by omega⟩, ?_, ?_, ?_⟩
  · simp only [rand]
    rw [if_pos (by omega)]
  · obtain ⟨e, he⟩ := regenerateWith_w1_error rs st.map.length hN
    rw [he]; rfl
  · unfold randomordering.getMap
    rw [if_pos ⟨hmiss, by rw [hW, randomizeDisable]; exact one_ne_zero⟩]
    obtain ⟨e, he⟩ := regenerateWith_w1_error (randStream seed) st.map.length hN
    rw [regenerate, hW, he]
    rfl

/-- Witness for `w1_generation_undefined` at `N = 2`, `W = 1`, `t = 0`,
seed 3, with the concrete draw stream of seed 0. -/
theorem w1_generation_undefined_witness :
    (max 0 (1 / 2) - 1 / 2 = 0 ∧
      min (0 + 1 / 2) (initial.resize 2 1).map.length = 0) ∧
    rand (randStream 0 0) (randStream 0 1) 0 0 = none ∧
    (regenerateWith (initial.resize 2 1).map.length 1 (randStream 0)).isOk = false ∧
    ((initial.resize 2 1).getMap 3).isOk = false :=
  w1_generation_undefined 0 (randStream 0) (initial.resize 2 1) 3
    (by decide) (by decide) (by decide) (by decide)

end msra.dbn
